import Mathlib

/-!
Verification of the things-cli repository (src/things.py, src/things_jxa.py).

The Python sources are shallowly embedded: pure helpers become Lean
functions; external effects (the filesystem, the json stdlib parser, the
`open` dispatcher, the `osascript` subprocess) are modelled as explicit
oracle parameters, so every command becomes a pure function of its inputs
and of the oracles' answers.
-/

namespace ThingsCli

/-- Python truthiness of an `Optional[str]`: `None` and the empty string are
falsy, every other string is truthy (models `if not items`, `if checklist`,
`if not auth_token`, `if file`, `elif data`). -/
def pyTruthy : Option String → Bool
  | none => false
  | some s => s ≠ ""

/-! ### Parameter values (src/things.py, `build_url`)

A parameter dictionary in the source maps names to `str`, `bool`, `list`
or `None`.  The dictionary is an insertion-ordered association list, with
`None` kept explicit so that the filtering step of `build_url` can be
stated. -/

inductive PVal where
  | str (s : String)
  | bool (b : Bool)
  | list (elems : List String)
deriving DecidableEq, Repr

/-- One parameter dictionary: insertion-ordered, `none` models Python `None`. -/
abbrev Params := List (String × Option PVal)

/-! ### Percent-encoding (src/things.py lines 93-97)

`urlencode(encoded_params, safe='', quote_via=quote)` percent-encodes the
UTF-8 bytes of every key and value; with `safe=''` only the characters
that `urllib.parse.quote` always keeps (ASCII letters, digits, `_.-~`)
survive unescaped.  Spaces therefore become `%20`, never `+`. -/

/-- The characters `urllib.parse.quote` never escapes (ASCII alphanumerics
and `_.-~`); the call site passes `safe=''`, so nothing else is safe. -/
def isUrlSafe (c : Char) : Bool :=
  c.isAlphanum || c = '_' || c = '.' || c = '-' || c = '~'

/-- Uppercase hexadecimal digit, as produced by `quote`'s `%XX` escapes. -/
def hexDigitU (n : Nat) : Char :=
  if n < 10 then Char.ofNat ('0'.toNat + n) else Char.ofNat ('A'.toNat + (n - 10))

/-- Two uppercase hex digits of a byte. -/
def hexPair (n : Nat) : List Char :=
  [hexDigitU (n / 16 % 16), hexDigitU (n % 16)]

/-- UTF-8 bytes of one character (the encoding `quote` escapes byte by byte). -/
def utf8Bytes (c : Char) : List Nat :=
  let n := c.toNat
  if n < 0x80 then [n]
  else if n < 0x800 then [0xC0 + n / 0x40, 0x80 + n % 0x40]
  else if n < 0x10000 then [0xE0 + n / 0x1000, 0x80 + n / 0x40 % 0x40, 0x80 + n % 0x40]
  else [0xF0 + n / 0x40000, 0x80 + n / 0x1000 % 0x40, 0x80 + n / 0x40 % 0x40, 0x80 + n % 0x40]

/-- `urllib.parse.quote` on a single character with `safe=''`. -/
def pyQuoteChar (c : Char) : String :=
  if isUrlSafe c then String.singleton c
  else String.mk (((utf8Bytes c).map (fun b => '%' :: hexPair b)).flatten)

/-- `urllib.parse.quote(s, safe='')`: safe characters pass through, every
other character is replaced by the `%XX` escapes of its UTF-8 bytes. -/
def pyQuote (s : String) : String :=
  String.mk ((s.data.map (fun c => (pyQuoteChar c).data)).flatten)

/-- The RFC 3986 reserved characters (gen-delims and sub-delims). -/
def reservedChars : List Char :=
  [':', '/', '?', '#', '[', ']', '@', '!', '$', '&', '\'', '(', ')', '*', '+', ',', ';', '=']

/-! ### build_url (src/things.py lines 68-101) -/

/-- The per-value encoding loop of `build_url`: booleans print as the
lowercase words, lists join with a line break, strings pass through. -/
def encodeValue : PVal → String
  | .bool b => if b then "true" else "false"
  | .list elems => String.intercalate "\n" elems
  | .str s => s

/-- `params = {k: v for k, v in params.items() if v is not None}`. -/
def filterParams (params : Params) : List (String × PVal) :=
  params.filterMap (fun kv => kv.2.map (fun v => (kv.1, v)))

/-- The `encoded_params` dictionary of `build_url`. -/
def encodedParams (params : Params) : List (String × String) :=
  (filterParams params).map (fun kv => (kv.1, encodeValue kv.2))

/-- The keys that actually appear in the built query string. -/
def urlQueryKeys (params : Params) : List String :=
  (encodedParams params).map Prod.fst

/-- `urlencode(encoded_params, safe='', quote_via=quote)`. -/
def queryString (params : Params) : String :=
  String.intercalate "&" ((encodedParams params).map (fun kv => pyQuote kv.1 ++ "=" ++ pyQuote kv.2))

/-- `build_url` (src/things.py lines 68-101). -/
def buildUrl (command : String) (params : Params) : String :=
  if (encodedParams params).isEmpty then "things:///" ++ command
  else "things:///" ++ command ++ "?" ++ queryString params

/-! ### execute_url (src/things.py lines 104-125) -/

/-- Errors any command can terminate with; each constructor corresponds to
one `raise typer.Exit(1)` site (exit code 1). -/
inductive CmdError where
  | authRequired
  | dispatchFailed
  | openNotFound
  | fileNotFound
  | fileParseError
  | dataParseError
  | missingInput
  | notAnArray
  | tooManyItems
deriving DecidableEq, Repr

/-- Observable effects of a command that ran to completion: the console
lines it printed and the external processes it spawned (as argv lists). -/
structure ExecOutcome where
  printed : List String
  invoked : List (List String)
deriving DecidableEq, Repr

/-- Outcome of `subprocess.run(["open", url], check=True)`, supplied by the
environment: clean exit, nonzero exit (`CalledProcessError`), or the `open`
binary missing (`FileNotFoundError`). -/
inductive OpenOutcome where
  | success
  | calledProcessError
  | openMissing
deriving DecidableEq, Repr

/-- `execute_url` (src/things.py lines 104-125): in dry-run mode it prints
the URL and spawns nothing; otherwise it spawns `open url` and maps a
failing spawn to exit code 1. -/
def executeUrl (url : String) (dryRun : Bool) (world : OpenOutcome) : Except CmdError ExecOutcome :=
  if dryRun then .ok ⟨["[cyan]Would execute:[/cyan] " ++ url], []⟩
  else
    match world with
    | .success => .ok ⟨["[green]✓ Command sent to Things[/green]"], [["open", url]]⟩
    | .calledProcessError => .error .dispatchFailed
    | .openMissing => .error .openNotFound

/-! ### split_items (src/things.py lines 138-144)

The body is `items.replace(',', '\n').split('\n')`, then `str.strip` on
each piece, then dropping empty pieces.  The string pipeline is embedded
at the character-list level with definitions that mirror the Python
string methods used. -/

/-- `str.replace(',', '\n')` on a single character (single-character
replacement is a per-character map). -/
def commaToNL (c : Char) : Char :=
  if c = ',' then '\n' else c

/-- Python `str.split(sep)` for a one-character separator: always returns
at least one piece, empty pieces included.  A separator opens a fresh
piece; any other character extends the current (first) piece. -/
def pySplitChar (sep : Char) : List Char → List (List Char)
  | [] => [[]]
  | c :: rest =>
    let r := pySplitChar sep rest
    if c = sep then [] :: r else (c :: r.headD []) :: r.tail

/-- The whitespace set of Python `str.strip()` (ASCII part). -/
def pyIsSpace (c : Char) : Bool :=
  c = ' ' || c = '\t' || c = '\n' || c = '\r' || c = '\x0b' || c = '\x0c'

/-- Remove trailing whitespace. -/
def dropTrailing (l : List Char) : List Char :=
  (l.reverse.dropWhile pyIsSpace).reverse

/-- Python `str.strip()`: remove leading and trailing whitespace. -/
def pyStrip (l : List Char) : List Char :=
  dropTrailing (l.dropWhile pyIsSpace)

/-- The piece list computed by `split_items` on a (truthy) string. -/
def splitItemsChars (s : List Char) : List (List Char) :=
  ((pySplitChar '\n' (s.map commaToNL)).map pyStrip).filter (fun l => l ≠ [])

/-- `split_items` (src/things.py lines 138-144): `None`/empty input yields
`None`; otherwise split on commas and line breaks, strip each item, drop
the empty ones. -/
def splitItems (items : Option String) : Option (List String) :=
  if pyTruthy items then some ((splitItemsChars (items.getD "").data).map String.mk)
  else none

/-- Python `'\n'.join` at the character-list level. -/
def joinNLChars : List (List Char) → List Char
  | [] => []
  | [x] => x
  | x :: y :: rest => x ++ '\n' :: joinNLChars (y :: rest)

/-- Python `'\n'.join(xs)`. -/
def pyJoinNL (xs : List String) : String :=
  String.mk (joinNLChars (xs.map String.data))

/-! ### The When enum (src/things.py lines 31-37) -/

inductive When where
  | today
  | tomorrow
  | evening
  | anytime
  | someday
deriving DecidableEq, Repr

/-- `.value` of a `When` member. -/
def When.value : When → String
  | .today => "today"
  | .tomorrow => "tomorrow"
  | .evening => "evening"
  | .anytime => "anytime"
  | .someday => "someday"

/-- `when.value if when else when_date` (the symbolic keyword wins over the
custom date). -/
def whenParam (w : Option When) (whenDate : Option String) : Option PVal :=
  match w with
  | some x => some (.str x.value)
  | none => whenDate.map .str

/-- `X if flag else None` for the boolean flags that only assert true. -/
def flagParam (b : Bool) : Option PVal :=
  if b then some (.bool b) else none

/-- `"\n".join(split_items(x)) if x else None` (checklist-style options). -/
def splitJoinParam (x : Option String) : Option PVal :=
  if pyTruthy x then some (.str (pyJoinNL ((splitItems x).getD []))) else none

/-! ### add (src/things.py lines 151-192) -/

/-- The option values of one `add` invocation (`dry_run` is passed
separately to the dispatch step). -/
structure AddOptions where
  title : String
  notes : Option String
  when : Option When
  when_date : Option String
  deadline : Option String
  tags : Option String
  checklist : Option String
  list_name : Option String
  list_id : Option String
  heading : Option String
  heading_id : Option String
  completed : Bool
  canceled : Bool
  reveal : Bool
  creation_date : Option String
  completion_date : Option String
deriving DecidableEq, Repr

/-- The `params` dictionary built by `add` (src/things.py lines 173-189). -/
def addParams (o : AddOptions) : Params :=
  [("title", some (.str o.title)),
   ("notes", o.notes.map .str),
   ("when", whenParam o.when o.when_date),
   ("deadline", o.deadline.map .str),
   ("tags", o.tags.map .str),
   ("checklist-items", splitJoinParam o.checklist),
   ("list", o.list_name.map .str),
   ("list-id", o.list_id.map .str),
   ("heading", o.heading.map .str),
   ("heading-id", o.heading_id.map .str),
   ("completed", flagParam o.completed),
   ("canceled", flagParam o.canceled),
   ("reveal", flagParam o.reveal),
   ("creation-date", o.creation_date.map .str),
   ("completion-date", o.completion_date.map .str)]

/-! ### add-project (src/things.py lines 195-232) -/

structure AddProjectOptions where
  title : String
  notes : Option String
  when : Option When
  when_date : Option String
  deadline : Option String
  tags : Option String
  area : Option String
  area_id : Option String
  todos : Option String
  completed : Bool
  canceled : Bool
  reveal : Bool
  creation_date : Option String
  completion_date : Option String
deriving DecidableEq, Repr

/-- The `params` dictionary built by `add_project` (lines 215-229). -/
def addProjectParams (o : AddProjectOptions) : Params :=
  [("title", some (.str o.title)),
   ("notes", o.notes.map .str),
   ("when", whenParam o.when o.when_date),
   ("deadline", o.deadline.map .str),
   ("tags", o.tags.map .str),
   ("area", o.area.map .str),
   ("area-id", o.area_id.map .str),
   ("to-dos", splitJoinParam o.todos),
   ("completed", flagParam o.completed),
   ("canceled", flagParam o.canceled),
   ("reveal", flagParam o.reveal),
   ("creation-date", o.creation_date.map .str),
   ("completion-date", o.completion_date.map .str)]

/-! ### update (src/things.py lines 235-296) -/

structure UpdateOptions where
  task_id : String
  title : Option String
  notes : Option String
  prepend_notes : Option String
  append_notes : Option String
  when : Option When
  when_date : Option String
  deadline : Option String
  tags : Option String
  add_tags : Option String
  checklist : Option String
  prepend_checklist : Option String
  append_checklist : Option String
  list_name : Option String
  list_id : Option String
  heading : Option String
  heading_id : Option String
  completed : Bool
  canceled : Bool
  duplicate : Bool
  reveal : Bool
  creation_date : Option String
  completion_date : Option String
deriving DecidableEq, Repr

/-- The `params` dictionary built by `update` (lines 269-293); `token` is
the value returned by `get_auth_token` (the `THINGS_TOKEN` variable, absent
when unset). -/
def updateParams (token : Option String) (o : UpdateOptions) : Params :=
  [("id", some (.str o.task_id)),
   ("auth-token", token.map .str),
   ("title", o.title.map .str),
   ("notes", o.notes.map .str),
   ("prepend-notes", o.prepend_notes.map .str),
   ("append-notes", o.append_notes.map .str),
   ("when", whenParam o.when o.when_date),
   ("deadline", o.deadline.map .str),
   ("tags", o.tags.map .str),
   ("add-tags", o.add_tags.map .str),
   ("checklist-items", splitJoinParam o.checklist),
   ("prepend-checklist-items", splitJoinParam o.prepend_checklist),
   ("append-checklist-items", splitJoinParam o.append_checklist),
   ("list", o.list_name.map .str),
   ("list-id", o.list_id.map .str),
   ("heading", o.heading.map .str),
   ("heading-id", o.heading_id.map .str),
   ("completed", flagParam o.completed),
   ("canceled", flagParam o.canceled),
   ("duplicate", flagParam o.duplicate),
   ("reveal", flagParam o.reveal),
   ("creation-date", o.creation_date.map .str),
   ("completion-date", o.completion_date.map .str)]

/-- `update` (lines 235-296): the credential gate, then `build_url` and
`execute_url`. -/
def updateCommand (token : Option String) (o : UpdateOptions) (dryRun : Bool)
    (world : OpenOutcome) : Except CmdError ExecOutcome :=
  if ¬ pyTruthy token ∧ ¬ dryRun then .error .authRequired
  else executeUrl (buildUrl "update" (updateParams token o)) dryRun world

/-! ### update-project (src/things.py lines 299-350) -/

structure UpdateProjectOptions where
  project_id : String
  title : Option String
  notes : Option String
  prepend_notes : Option String
  append_notes : Option String
  when : Option When
  when_date : Option String
  deadline : Option String
  tags : Option String
  add_tags : Option String
  area : Option String
  area_id : Option String
  completed : Bool
  canceled : Bool
  duplicate : Bool
  reveal : Bool
  creation_date : Option String
  completion_date : Option String
deriving DecidableEq, Repr

/-- The `params` dictionary built by `update_project` (lines 328-347). -/
def updateProjectParams (token : Option String) (o : UpdateProjectOptions) : Params :=
  [("id", some (.str o.project_id)),
   ("auth-token", token.map .str),
   ("title", o.title.map .str),
   ("notes", o.notes.map .str),
   ("prepend-notes", o.prepend_notes.map .str),
   ("append-notes", o.append_notes.map .str),
   ("when", whenParam o.when o.when_date),
   ("deadline", o.deadline.map .str),
   ("tags", o.tags.map .str),
   ("add-tags", o.add_tags.map .str),
   ("area", o.area.map .str),
   ("area-id", o.area_id.map .str),
   ("completed", flagParam o.completed),
   ("canceled", flagParam o.canceled),
   ("duplicate", flagParam o.duplicate),
   ("reveal", flagParam o.reveal),
   ("creation-date", o.creation_date.map .str),
   ("completion-date", o.completion_date.map .str)]

/-- `update_project` (lines 299-350). -/
def updateProjectCommand (token : Option String) (o : UpdateProjectOptions) (dryRun : Bool)
    (world : OpenOutcome) : Except CmdError ExecOutcome :=
  if ¬ pyTruthy token ∧ ¬ dryRun then .error .authRequired
  else executeUrl (buildUrl "update-project" (updateProjectParams token o)) dryRun world

/-! ### JSON values and json_command (src/things.py lines 406-459)

Parsed JSON documents are the values the Python `json` module produces;
the parser itself (stdlib `json.loads` / `json.load`) is modelled as an
oracle `String → Option Json`, `none` standing for `JSONDecodeError`. -/

inductive Json where
  | null
  | bool (b : Bool)
  | num (n : Int)
  | str (s : String)
  | arr (elems : List Json)
  | obj (fields : List (String × Json))
deriving Repr

/-- One escaped character of a JSON string literal, as `json.dumps` emits
it (default `ensure_ascii=True`). -/
def jsonEscapeChar (c : Char) : String :=
  if c = '"' then "\\\""
  else if c = '\\' then "\\\\"
  else if c = '\n' then "\\n"
  else if c = '\r' then "\\r"
  else if c = '\t' then "\\t"
  else if c = '\x08' then "\\b"
  else if c = '\x0c' then "\\f"
  else if c.toNat < 0x20 ∨ 0x7e < c.toNat then
    if c.toNat ≤ 0xffff then
      String.mk ('\\' :: 'u' :: (hexPair (c.toNat / 256) ++ hexPair (c.toNat % 256)).map Char.toLower)
    else
      let m := c.toNat - 0x10000
      let hi := 0xd800 + m / 0x400
      let lo := 0xdc00 + m % 0x400
      String.mk (('\\' :: 'u' :: (hexPair (hi / 256) ++ hexPair (hi % 256)).map Char.toLower)
        ++ ('\\' :: 'u' :: (hexPair (lo / 256) ++ hexPair (lo % 256)).map Char.toLower))
  else String.singleton c

/-- A JSON string literal as `json.dumps` emits it. -/
def jsonQuoteStr (s : String) : String :=
  "\"" ++ String.join (s.data.map jsonEscapeChar) ++ "\""

mutual

/-- `json.dumps` with its default separators. -/
def Json.dumps : Json → String
  | .null => "null"
  | .bool true => "true"
  | .bool false => "false"
  | .num n => toString n
  | .str s => jsonQuoteStr s
  | .arr elems => "[" ++ String.intercalate ", " (Json.dumpsList elems) ++ "]"
  | .obj fields => "\x7b" ++ String.intercalate ", " (Json.dumpsFields fields) ++ "\x7d"

def Json.dumpsList : List Json → List String
  | [] => []
  | j :: rest => Json.dumps j :: Json.dumpsList rest

def Json.dumpsFields : List (String × Json) → List String
  | [] => []
  | (k, v) :: rest => (jsonQuoteStr k ++ ": " ++ Json.dumps v) :: Json.dumpsFields rest

end

/-- What `open(file)` followed by `json.load` can meet on disk: no such
file (`FileNotFoundError`), or the file's text (handed to the parser
oracle). -/
inductive FileOutcome where
  | notFound
  | content (text : String)

/-- The payload-loading block of `json_command` (lines 420-440): the file
takes the `if` branch, inline data the `elif`, and with neither the
command errors out.  `fs` answers `open`, `parse` answers
`json.load`/`json.loads`. -/
def loadJsonPayload (data file : Option String) (fs : String → FileOutcome)
    (parse : String → Option Json) : Except CmdError Json :=
  if pyTruthy file then
    match fs (file.getD "") with
    | .notFound => .error .fileNotFound
    | .content text =>
      match parse text with
      | some j => .ok j
      | none => .error .fileParseError
  else if pyTruthy data then
    match parse (data.getD "") with
    | some j => .ok j
    | none => .error .dataParseError
  else .error .missingInput

/-- The `params` dictionary of `json_command` (lines 452-456). -/
def jsonParams (token : Option String) (reveal : Bool) (payload : Json) : Params :=
  [("data", some (.str payload.dumps)),
   ("auth-token", token.map .str),
   ("reveal", flagParam reveal)]

/-- `json_command` (src/things.py lines 406-459): credential gate, payload
loading, the array-shape check, the 250-item cap, then `build_url` and
`execute_url`. -/
def jsonCommand (token : Option String) (data file : Option String) (reveal dryRun : Bool)
    (fs : String → FileOutcome) (parse : String → Option Json)
    (world : OpenOutcome) : Except CmdError ExecOutcome :=
  if ¬ pyTruthy token ∧ ¬ dryRun then .error .authRequired
  else
    match loadJsonPayload data file fs parse with
    | .error e => .error e
    | .ok payload =>
      match payload with
      | .arr elems =>
        if elems.length > 250 then .error .tooManyItems
        else executeUrl (buildUrl "json" (jsonParams token reveal (.arr elems))) dryRun world
      | _ => .error .notAnArray

/-! ## The read bridge (src/things_jxa.py)

Dictionaries again become insertion-ordered association lists with the
Python lookup/assignment semantics made explicit. -/

/-- `d.get(k)` / `d[k]` on an association list. -/
def dictGet {β : Type} (d : List (String × β)) (k : String) : Option β :=
  (d.find? (fun kv => kv.1 == k)).map Prod.snd

/-- `d[k] = v`: update in place when the key exists, append otherwise
(Python dicts preserve insertion order). -/
def dictSet {β : Type} (d : List (String × β)) (k : String) (v : β) : List (String × β) :=
  if d.any (fun kv => kv.1 == k) then d.map (fun kv => if kv.1 == k then (k, v) else kv)
  else d ++ [(k, v)]

/-- `LOCALE_MAPPINGS` (src/things_jxa.py lines 17-36). -/
def LOCALE_MAPPINGS : List (String × List (String × String)) :=
  [("de",
    [("inbox", "Eingang"),
     ("today", "Heute"),
     ("tomorrow", "Morgen"),
     ("anytime", "Jederzeit"),
     ("upcoming", "Geplant"),
     ("someday", "Irgendwann"),
     ("logbook", "Logbuch")]),
   ("en",
    [("inbox", "Inbox"),
     ("today", "Today"),
     ("tomorrow", "Tomorrow"),
     ("anytime", "Anytime"),
     ("upcoming", "Upcoming"),
     ("someday", "Someday"),
     ("logbook", "Logbook")])]

/-- The positional keys of `detect_list_names` (line 72): Things returns
its built-in lists in this order; Tomorrow is a virtual filter with no
positional entry. -/
def englishKeys : List String :=
  ["inbox", "today", "upcoming", "anytime", "someday", "logbook"]

/-- `known_tomorrow` (lines 81-85). -/
def knownTomorrow : List (String × String) :=
  [("de", "Morgen"), ("en", "Tomorrow")]

/-- The `for locale, tomorrow_name in known_tomorrow.items()` loop (lines
88-94): the first known locale whose Inbox label equals the detected Inbox
label lends its Tomorrow label. -/
def tomorrowFromKnown (inboxLabel : String) : List (String × String) → Option String
  | [] => none
  | (locale, _) :: rest =>
    match dictGet LOCALE_MAPPINGS locale with
    | none => tomorrowFromKnown inboxLabel rest
    | some table =>
      if inboxLabel = (dictGet table "inbox").getD "" then some ((dictGet table "tomorrow").getD "")
      else tomorrowFromKnown inboxLabel rest

/-- The `if "tomorrow" not in detected_mapping` fallback of
`detect_list_names` (lines 96-98). -/
def detectEnsureTomorrow (d : List (String × String)) : List (String × String) :=
  if (dictGet d "tomorrow").isSome then d else dictSet d "tomorrow" "Morgen"

/-- `detect_list_names` (src/things_jxa.py lines 42-105).  `bridge` is the
answer of `run_jxa` + `json.loads` on the list-name query: `none` models
any exception on that path (the `except` clause falls back to the German
table).  The positional zip truncates exactly like the guarded index loop
of lines 75-77. -/
def detectListNames (bridge : Option (List String)) : List (String × String) :=
  match bridge with
  | none => (dictGet LOCALE_MAPPINGS "de").getD []
  | some listNames =>
    detectEnsureTomorrow
      (match tomorrowFromKnown ((dictGet (englishKeys.zip listNames) "inbox").getD "")
          knownTomorrow with
        | some tomorrowLabel => dictSet (englishKeys.zip listNames) "tomorrow" tomorrowLabel
        | none => englishKeys.zip listNames)

/-! ### run_jxa (src/things_jxa.py lines 108-143) -/

/-- `'pat' in s` (Python substring test): is `pat` a prefix of some
suffix of `s`? -/
def isPrefixList : List Char → List Char → Bool
  | [], _ => true
  | _ :: _, [] => false
  | a :: as, b :: bs => a = b && isPrefixList as bs

def listInfix (pat : List Char) : List Char → Bool
  | [] => isPrefixList pat []
  | b :: bs => isPrefixList pat (b :: bs) || listInfix pat bs

/-- Python `pat in s` on strings. -/
def strContains (s pat : String) : Bool :=
  listInfix pat.data s.data

/-- The wall-clock bound passed to `subprocess.run` (line 126). -/
def jxaTimeoutSeconds : Nat := 30

/-- Outcome of `subprocess.run(["osascript", "-l", "JavaScript", "-e",
script], capture_output=True, text=True, timeout=30)`: a completed process
with its exit code and streams, a `TimeoutExpired` after
`jxaTimeoutSeconds` seconds, or a missing `osascript` binary
(`FileNotFoundError`). -/
inductive SubprocOutcome where
  | completed (returncode : Int) (stdout stderr : String)
  | timeoutExpired
  | osascriptMissing
deriving DecidableEq, Repr

/-- The distinct failure messages `run_jxa` raises (each constructor is
one `raise RuntimeError(...)` site). -/
inductive JxaError where
  | connectionFailed (msg : String)
  | scriptFailed (msg : String)
  | timedOut (msg : String)
  | interpreterMissing (msg : String)
deriving DecidableEq, Repr

/-- `run_jxa` (src/things_jxa.py lines 108-143). -/
def runJxa (script : String) (outcome : SubprocOutcome) : Except JxaError String :=
  match outcome with
  | .completed returncode stdout stderr =>
    if returncode ≠ 0 then
      let errorMsg := String.mk (pyStrip stderr.data)
      if strContains errorMsg "Things3" || strContains errorMsg "Application" then
        .error (.connectionFailed
          "Could not connect to Things 3. Make sure Things 3 is installed and running.")
      else .error (.scriptFailed ("JXA script failed: " ++ errorMsg))
    else .ok (String.mk (pyStrip stdout.data))
  | .timeoutExpired => .error (.timedOut "JXA script timed out after 30 seconds")
  | .osascriptMissing => .error (.interpreterMissing "osascript command not found. Are you on macOS?")

/-! ### get_list_tasks (src/things_jxa.py lines 146-203) -/

/-- The mapping chosen by `get_list_tasks` (lines 157-166): a known
explicit locale hits the static table, `None`/`"auto"` and unknown locales
auto-detect. -/
def chooseMapping (locale : Option String) (bridge : Option (List String)) :
    List (String × String) :=
  if pyTruthy locale ∧ locale ≠ some "auto" ∧ (dictGet LOCALE_MAPPINGS (locale.getD "")).isSome then
    (dictGet LOCALE_MAPPINGS (locale.getD "")).getD []
  else if locale = none ∨ locale = some "auto" then detectListNames bridge
  else detectListNames bridge

/-- Python `str.lower()` (per-character lowercasing; the canonical keys
are ASCII, where this matches Python exactly). -/
def pyLower (s : String) : String :=
  String.mk (s.data.map Char.toLower)

/-- `name_mapping.get(list_name.lower(), list_name)` (line 169): the
requested name is lowercased for the lookup; an unmapped name passes
through unchanged. -/
def localizedListName (mapping : List (String × String)) (listName : String) : String :=
  (dictGet mapping (pyLower listName)).getD listName

/-- The JXA script body of `get_list_tasks` (lines 171-200), with the
localized list name interpolated at its two occurrences. -/
def listTasksScript (localizedName : String) : String :=
  "\n    const things = Application(\"Things3\");\n    const lists = things.lists();\n" ++
  "    let targetList = null;\n    for (let i = 0; i < lists.length; i++) \x7b\n" ++
  "        if (lists[i].name() === \"" ++ localizedName ++ "\") \x7b\n" ++
  "            targetList = lists[i];\n            break;\n        \x7d\n    \x7d\n" ++
  "    if (!targetList) \x7b\n        throw new Error(\"List not found: " ++ localizedName ++
  "\");\n    \x7d\n\n    const tasks = targetList.toDos();\n    const result = [];\n" ++
  "    for (let i = 0; i < tasks.length; i++) \x7b\n        const t = tasks[i];\n" ++
  "        result.push(\x7b\n            id: t.id(),\n            name: t.name(),\n" ++
  "            status: t.status(),\n            notes: t.notes() || \"\",\n" ++
  "            tagNames: t.tagNames() || \"\",\n" ++
  "            dueDate: t.dueDate() ? t.dueDate().toString() : null,\n" ++
  "            creationDate: t.creationDate() ? t.creationDate().toString() : null\n" ++
  "        \x7d);\n    \x7d\n    JSON.stringify(result);\n    "

/-- The script `get_list_tasks` hands to `run_jxa` for a requested list
name, locale hint, and detection answer. -/
def getListTasksScript (listName : String) (locale : Option String)
    (bridge : Option (List String)) : String :=
  listTasksScript (localizedListName (chooseMapping locale bridge) listName)

/-- The canonical English keys of the locale map (glossary: the built-in
lists plus the virtual Tomorrow filter). -/
def canonicalKeys : List String :=
  ["inbox", "today", "tomorrow", "anytime", "upcoming", "someday", "logbook"]

/-! ### Concrete sample inputs used to evaluate the theorems -/

def sampleAdd : AddOptions :=
  { title := "Buy milk", notes := none, when := none, when_date := none, deadline := none,
    tags := none, checklist := none, list_name := none, list_id := none, heading := none,
    heading_id := none, completed := false, canceled := false, reveal := false,
    creation_date := none, completion_date := none }

def sampleAddProject : AddProjectOptions :=
  { title := "Spring cleaning", notes := none, when := none, when_date := none,
    deadline := none, tags := none, area := none, area_id := none, todos := none,
    completed := false, canceled := false, reveal := false, creation_date := none,
    completion_date := none }

def sampleUpdate : UpdateOptions :=
  { task_id := "ABC-123", title := none, notes := none, prepend_notes := none,
    append_notes := none, when := none, when_date := none, deadline := none, tags := none,
    add_tags := none, checklist := none, prepend_checklist := none, append_checklist := none,
    list_name := none, list_id := none, heading := none, heading_id := none,
    completed := false, canceled := false, duplicate := false, reveal := false,
    creation_date := none, completion_date := none }

def sampleUpdateProject : UpdateProjectOptions :=
  { project_id := "PRJ-9", title := none, notes := none, prepend_notes := none,
    append_notes := none, when := none, when_date := none, deadline := none, tags := none,
    add_tags := none, area := none, area_id := none, completed := false, canceled := false,
    duplicate := false, reveal := false, creation_date := none, completion_date := none }

/-- A filesystem oracle whose every file holds the text `[null]`. -/
def sampleFs : String → FileOutcome := fun _ => .content "[null]"

/-- A parser oracle that accepts exactly the text `[null]`. -/
def sampleParse : String → Option Json :=
  fun s => if s = "[null]" then some (.arr [Json.null]) else none

/-- A parser oracle that parses everything to a 250-element array. -/
def parseArr250 : String → Option Json := fun _ => some (.arr (List.replicate 250 Json.null))

/-- A parser oracle that parses everything to a 251-element array. -/
def parseArr251 : String → Option Json := fun _ => some (.arr (List.replicate 251 Json.null))

/-- A parser oracle that parses everything to a single JSON record. -/
def parseSingleRecord : String → Option Json := fun _ => some (.obj [("type", .str "to-do")])

/-! ## Theorems -/

/-- A key reaches the query string exactly when the parameter dictionary
holds a present (non-`None`) value for it. -/
theorem mem_urlQueryKeys (params : Params) (k : String) :
    k ∈ urlQueryKeys params ↔ ∃ v, (k, some v) ∈ params := by
  constructor
  · intro hk
    simp only [urlQueryKeys, encodedParams, List.map_map, List.mem_map, Function.comp] at hk
    obtain ⟨kv, hkv, rfl⟩ := hk
    simp only [filterParams, List.mem_filterMap] at hkv
    obtain ⟨⟨a, ov⟩, hmem, hf⟩ := hkv
    cases ov with
    | none => simp at hf
    | some w =>
      simp only [Option.map_some'] at hf
      cases hf
      exact ⟨w, hmem⟩
  · intro hv
    obtain ⟨v, hv⟩ := hv
    simp only [urlQueryKeys, encodedParams, List.map_map, List.mem_map, Function.comp]
    refine ⟨(k, v), ?_, rfl⟩
    simp only [filterParams, List.mem_filterMap]
    exact ⟨(k, some v), hv, rfl⟩

/-- In a dictionary with pairwise-distinct keys, a key determines its
value. -/
theorem keyed_unique {β : Type} {params : List (String × β)}
    (hnd : (params.map Prod.fst).Nodup) {k : String} {b₁ b₂ : β}
    (h₁ : (k, b₁) ∈ params) (h₂ : (k, b₂) ∈ params) : b₁ = b₂ := by
  induction params with
  | nil => cases h₁
  | cons hd tl ih =>
    rw [List.map_cons, List.nodup_cons] at hnd
    rcases List.mem_cons.mp h₁ with h₁ | h₁ <;> rcases List.mem_cons.mp h₂ with h₂ | h₂
    · rw [← h₁] at h₂
      exact (Prod.ext_iff.mp h₂).2.symm
    · exfalso
      apply hnd.1
      rw [← h₁]
      exact show (k, b₂).1 ∈ List.map Prod.fst tl from List.mem_map_of_mem Prod.fst h₂
    · exfalso
      apply hnd.1
      rw [← h₂]
      exact show (k, b₁).1 ∈ List.map Prod.fst tl from List.mem_map_of_mem Prod.fst h₁
    · exact ih hnd.2 h₁ h₂

/-- `build_url` keeps absent parameters out of the query string when the
dictionary's keys are distinct. -/
theorem absent_key_not_in_query (params : Params) (k : String)
    (hnd : (params.map Prod.fst).Nodup) (h : (k, none) ∈ params) :
    k ∉ urlQueryKeys params := by
  intro hk
  obtain ⟨v, hv⟩ := (mem_urlQueryKeys params k).mp hk
  simpa using keyed_unique hnd h hv

theorem addParams_keys (o : AddOptions) :
    (addParams o).map Prod.fst =
      ["title", "notes", "when", "deadline", "tags", "checklist-items", "list", "list-id",
       "heading", "heading-id", "completed", "canceled", "reveal", "creation-date",
       "completion-date"] := rfl

theorem addProjectParams_keys (o : AddProjectOptions) :
    (addProjectParams o).map Prod.fst =
      ["title", "notes", "when", "deadline", "tags", "area", "area-id", "to-dos",
       "completed", "canceled", "reveal", "creation-date", "completion-date"] := rfl

theorem updateParams_keys (token : Option String) (o : UpdateOptions) :
    (updateParams token o).map Prod.fst =
      ["id", "auth-token", "title", "notes", "prepend-notes", "append-notes", "when",
       "deadline", "tags", "add-tags", "checklist-items", "prepend-checklist-items",
       "append-checklist-items", "list", "list-id", "heading", "heading-id", "completed",
       "canceled", "duplicate", "reveal", "creation-date", "completion-date"] := rfl

theorem updateProjectParams_keys (token : Option String) (o : UpdateProjectOptions) :
    (updateProjectParams token o).map Prod.fst =
      ["id", "auth-token", "title", "notes", "prepend-notes", "append-notes", "when",
       "deadline", "tags", "add-tags", "area", "area-id", "completed", "canceled",
       "duplicate", "reveal", "creation-date", "completion-date"] := rfl

theorem addParams_keys_nodup (o : AddOptions) : ((addParams o).map Prod.fst).Nodup := by
  rw [addParams_keys]; decide

theorem addProjectParams_keys_nodup (o : AddProjectOptions) :
    ((addProjectParams o).map Prod.fst).Nodup := by
  rw [addProjectParams_keys]; decide

theorem updateParams_keys_nodup (token : Option String) (o : UpdateOptions) :
    ((updateParams token o).map Prod.fst).Nodup := by
  rw [updateParams_keys]; decide

theorem updateProjectParams_keys_nodup (token : Option String) (o : UpdateProjectOptions) :
    ((updateProjectParams token o).map Prod.fst).Nodup := by
  rw [updateProjectParams_keys]; decide

/-- C1: for every invocation of add, add-project, update, or
update-project, a parameter whose value is absent (`None`) never appears
as a key in the query string of the built request URL, and each of the
boolean flags completed, canceled, and reveal given as explicit false is
likewise kept out of the query string. -/
theorem c1_absent_params_filtered (a : AddOptions) (p : AddProjectOptions)
    (u : UpdateOptions) (up : UpdateProjectOptions) (token : Option String) (k : String) :
    ((k, none) ∈ addParams a → k ∉ urlQueryKeys (addParams a)) ∧
    (a.completed = false → "completed" ∉ urlQueryKeys (addParams a)) ∧
    (a.canceled = false → "canceled" ∉ urlQueryKeys (addParams a)) ∧
    (a.reveal = false → "reveal" ∉ urlQueryKeys (addParams a)) ∧
    ((k, none) ∈ addProjectParams p → k ∉ urlQueryKeys (addProjectParams p)) ∧
    (p.completed = false → "completed" ∉ urlQueryKeys (addProjectParams p)) ∧
    (p.canceled = false → "canceled" ∉ urlQueryKeys (addProjectParams p)) ∧
    (p.reveal = false → "reveal" ∉ urlQueryKeys (addProjectParams p)) ∧
    ((k, none) ∈ updateParams token u → k ∉ urlQueryKeys (updateParams token u)) ∧
    (u.completed = false → "completed" ∉ urlQueryKeys (updateParams token u)) ∧
    (u.canceled = false → "canceled" ∉ urlQueryKeys (updateParams token u)) ∧
    (u.reveal = false → "reveal" ∉ urlQueryKeys (updateParams token u)) ∧
    ((k, none) ∈ updateProjectParams token up → k ∉ urlQueryKeys (updateProjectParams token up)) ∧
    (up.completed = false → "completed" ∉ urlQueryKeys (updateProjectParams token up)) ∧
    (up.canceled = false → "canceled" ∉ urlQueryKeys (updateProjectParams token up)) ∧
    (up.reveal = false → "reveal" ∉ urlQueryKeys (updateProjectParams token up)) := by
  refine ⟨?_, ?_, ?_, ?_, ?_, ?_, ?_, ?_, ?_, ?_, ?_, ?_, ?_, ?_, ?_, ?_⟩
  · exact absent_key_not_in_query _ _ (addParams_keys_nodup a)
  · intro h
    exact absent_key_not_in_query _ _ (addParams_keys_nodup a) (by simp [addParams, flagParam, h])
  · intro h
    exact absent_key_not_in_query _ _ (addParams_keys_nodup a) (by simp [addParams, flagParam, h])
  · intro h
    exact absent_key_not_in_query _ _ (addParams_keys_nodup a) (by simp [addParams, flagParam, h])
  · exact absent_key_not_in_query _ _ (addProjectParams_keys_nodup p)
  · intro h
    exact absent_key_not_in_query _ _ (addProjectParams_keys_nodup p)
      (by simp [addProjectParams, flagParam, h])
  · intro h
    exact absent_key_not_in_query _ _ (addProjectParams_keys_nodup p)
      (by simp [addProjectParams, flagParam, h])
  · intro h
    exact absent_key_not_in_query _ _ (addProjectParams_keys_nodup p)
      (by simp [addProjectParams, flagParam, h])
  · exact absent_key_not_in_query _ _ (updateParams_keys_nodup token u)
  · intro h
    exact absent_key_not_in_query _ _ (updateParams_keys_nodup token u)
      (by simp [updateParams, flagParam, h])
  · intro h
    exact absent_key_not_in_query _ _ (updateParams_keys_nodup token u)
      (by simp [updateParams, flagParam, h])
  · intro h
    exact absent_key_not_in_query _ _ (updateParams_keys_nodup token u)
      (by simp [updateParams, flagParam, h])
  · exact absent_key_not_in_query _ _ (updateProjectParams_keys_nodup token up)
  · intro h
    exact absent_key_not_in_query _ _ (updateProjectParams_keys_nodup token up)
      (by simp [updateProjectParams, flagParam, h])
  · intro h
    exact absent_key_not_in_query _ _ (updateProjectParams_keys_nodup token up)
      (by simp [updateProjectParams, flagParam, h])
  · intro h
    exact absent_key_not_in_query _ _ (updateProjectParams_keys_nodup token up)
      (by simp [updateProjectParams, flagParam, h])

/-- C1 at a concrete invocation: with every optional value absent and all
flags false, the corresponding keys are all missing from the query. -/
theorem c1_absent_params_filtered_witness :
    "notes" ∉ urlQueryKeys (addParams sampleAdd) ∧
    "completed" ∉ urlQueryKeys (addParams sampleAdd) ∧
    "canceled" ∉ urlQueryKeys (addProjectParams sampleAddProject) ∧
    "reveal" ∉ urlQueryKeys (updateParams none sampleUpdate) ∧
    "title" ∉ urlQueryKeys (updateProjectParams none sampleUpdateProject) := by
  refine ⟨?_, ?_, ?_, ?_, ?_⟩
  · exact (c1_absent_params_filtered sampleAdd sampleAddProject sampleUpdate
      sampleUpdateProject none "notes").1 (by decide)
  · exact (c1_absent_params_filtered sampleAdd sampleAddProject sampleUpdate
      sampleUpdateProject none "completed").2.1 (by decide)
  · exact (c1_absent_params_filtered sampleAdd sampleAddProject sampleUpdate
      sampleUpdateProject none "canceled").2.2.2.2.2.2.1 (by decide)
  · exact (c1_absent_params_filtered sampleAdd sampleAddProject sampleUpdate
      sampleUpdateProject none "reveal").2.2.2.2.2.2.2.2.2.2.2.1 (by decide)
  · exact (c1_absent_params_filtered sampleAdd sampleAddProject sampleUpdate
      sampleUpdateProject none "title").2.2.2.2.2.2.2.2.2.2.2.2.1 (by decide)

/-! ### C6: query-string percent-encoding -/

theorem hexDigitU_ne_plus (n : Nat) (h : n < 16) : hexDigitU n ≠ '+' := by
  interval_cases n <;> decide

/-- No output of the encoder contains a literal `+`: safe characters are
never `+`, and escapes consist of `%` and uppercase hex digits. -/
theorem pyQuoteChar_no_plus (c : Char) : '+' ∉ (pyQuoteChar c).data := by
  intro hmem
  unfold pyQuoteChar at hmem
  by_cases h : isUrlSafe c
  · rw [if_pos h] at hmem
    have hc : '+' = c := by simpa [String.singleton] using hmem
    rw [← hc] at h
    exact absurd h (by decide)
  · rw [if_neg h] at hmem
    simp only [List.mem_flatten, List.mem_map] at hmem
    obtain ⟨piece, ⟨b, _hb, hpiece⟩, hin⟩ := hmem
    rw [← hpiece] at hin
    simp only [hexPair, List.mem_cons, List.not_mem_nil, or_false] at hin
    rcases hin with h1 | h1 | h1
    · exact absurd h1 (by decide)
    · exact hexDigitU_ne_plus _ (Nat.mod_lt _ (by decide)) h1.symm
    · exact hexDigitU_ne_plus _ (Nat.mod_lt _ (by decide)) h1.symm

/-- C6: for a parameter set with at least one present value the built URL
carries a query string; its encoder writes every space as `%20` (never
`+`), treats no reserved character as safe, and percent-escapes each of
them, and no `+` ever appears in any encoded value. -/
theorem c6_query_encoding (command : String) (params : Params)
    (h : (encodedParams params).isEmpty = false) :
    buildUrl command params = "things:///" ++ command ++ "?" ++ queryString params ∧
    queryString params = String.intercalate "&"
      ((encodedParams params).map (fun kv => pyQuote kv.1 ++ "=" ++ pyQuote kv.2)) ∧
    pyQuoteChar ' ' = "%20" ∧
    (∀ c ∈ reservedChars, isUrlSafe c = false ∧
      pyQuoteChar c = String.mk ('%' :: hexPair c.toNat)) ∧
    (∀ s : String, '+' ∉ (pyQuote s).data) := by
  refine ⟨by simp [buildUrl, h], rfl, by decide, by decide, ?_⟩
  intro s hmem
  simp only [pyQuote, List.mem_flatten, List.mem_map] at hmem
  obtain ⟨piece, ⟨c, _hc, hpiece⟩, hin⟩ := hmem
  rw [← hpiece] at hin
  exact pyQuoteChar_no_plus c hin

/-- C6 at a concrete parameter set: a title with a space encodes to `%20`. -/
theorem c6_query_encoding_witness :
    (encodedParams [("title", some (PVal.str "a b"))]).isEmpty = false ∧
    buildUrl "add" [("title", some (PVal.str "a b"))] = "things:///add?title=a%20b" := by
  refine ⟨by decide, ?_⟩
  rw [(c6_query_encoding "add" [("title", some (PVal.str "a b"))] (by decide)).1]
  decide

/-! ### C7: dry-run dispatch -/

/-- C7: with dry_run set, `execute_url` prints the request string verbatim
(one console line carrying the URL), spawns no external process, and
succeeds, for every URL and regardless of the state of the `open`
facility. -/
theorem c7_dry_run_dispatch (url : String) (world : OpenOutcome) :
    executeUrl url true world = .ok ⟨["[cyan]Would execute:[/cyan] " ++ url], []⟩ ∧
    (∀ world₂ : OpenOutcome, executeUrl url true world₂ = executeUrl url true world) :=
  ⟨rfl, fun _ => rfl⟩

/-! ### C8: bridge timeout error kind -/

/-- C8: a bridge subprocess that exceeds the 30-second timeout makes
`run_jxa` fail with the dedicated timed-out message, never with the
script-failed, missing-interpreter, or connection-failed kinds. -/
theorem c8_bridge_timeout (script : String) :
    runJxa script .timeoutExpired = .error (.timedOut "JXA script timed out after 30 seconds") ∧
    jxaTimeoutSeconds = 30 ∧
    (∀ msg, runJxa script .timeoutExpired ≠ .error (.scriptFailed msg)) ∧
    (∀ msg, runJxa script .timeoutExpired ≠ .error (.interpreterMissing msg)) ∧
    (∀ msg, runJxa script .timeoutExpired ≠ .error (.connectionFailed msg)) := by
  refine ⟨rfl, rfl, ?_, ?_, ?_⟩ <;> intro msg h <;> simp [runJxa] at h

/-! ### C2, C3, C9: the credential gate and the batch json command -/

/-- Payload loading never raises the authentication error. -/
theorem loadJsonPayload_ne_auth (data file : Option String) (fs : String → FileOutcome)
    (parse : String → Option Json) :
    loadJsonPayload data file fs parse ≠ .error .authRequired := by
  unfold loadJsonPayload
  repeat' split
  all_goals simp

/-- A failing dispatch step carries one of the two dispatch errors. -/
theorem executeUrl_error (url : String) (dry : Bool) (world : OpenOutcome) (e : CmdError)
    (h : executeUrl url dry world = .error e) :
    e = .dispatchFailed ∨ e = .openNotFound := by
  cases dry <;> cases world <;> simp [executeUrl] at h <;> (try subst h) <;> simp

/-- Every error of `json_command` is the auth gate, a payload-loading
error, one of the two validation errors, or a dispatch error. -/
theorem jsonCommand_error_shape (token : Option String) (data file : Option String)
    (rv dry : Bool) (fs : String → FileOutcome) (parse : String → Option Json)
    (world : OpenOutcome) (e : CmdError)
    (h : jsonCommand token data file rv dry fs parse world = .error e) :
    e = .authRequired ∨ loadJsonPayload data file fs parse = .error e ∨
      e = .tooManyItems ∨ e = .notAnArray ∨ e = .dispatchFailed ∨ e = .openNotFound := by
  simp only [jsonCommand] at h
  by_cases hg : ¬ pyTruthy token ∧ ¬ dry
  · rw [if_pos hg] at h
    exact Or.inl (Except.error.inj h).symm
  · rw [if_neg hg] at h
    rcases hl : loadJsonPayload data file fs parse with e' | j
    · simp only [hl] at h
      exact Or.inr (Or.inl (congrArg Except.error (Except.error.inj h)))
    · simp only [hl] at h
      cases j with
      | arr elems =>
        have h' : (if elems.length > 250 then (.error .tooManyItems : Except CmdError ExecOutcome)
            else executeUrl (buildUrl "json" (jsonParams token rv (.arr elems))) dry world) =
            .error e := h
        by_cases hlen : elems.length > 250
        · rw [if_pos hlen] at h'
          exact Or.inr (Or.inr (Or.inl (Except.error.inj h').symm))
        · rw [if_neg hlen] at h'
          rcases executeUrl_error _ _ _ _ h' with he | he <;> subst he <;> tauto
      | null => exact Or.inr (Or.inr (Or.inr (Or.inl (Except.error.inj h).symm)))
      | bool b => exact Or.inr (Or.inr (Or.inr (Or.inl (Except.error.inj h).symm)))
      | num n => exact Or.inr (Or.inr (Or.inr (Or.inl (Except.error.inj h).symm)))
      | str s => exact Or.inr (Or.inr (Or.inr (Or.inl (Except.error.inj h).symm)))
      | obj fields => exact Or.inr (Or.inr (Or.inr (Or.inl (Except.error.inj h).symm)))

/-- With dry_run set, `json_command` can never fail for a missing
credential. -/
theorem jsonCommand_dry_no_auth (token : Option String) (data file : Option String)
    (rv : Bool) (fs : String → FileOutcome) (parse : String → Option Json)
    (world : OpenOutcome) :
    jsonCommand token data file rv true fs parse world ≠ .error .authRequired := by
  intro h
  simp only [jsonCommand] at h
  rw [if_neg (by simp)] at h
  rcases hl : loadJsonPayload data file fs parse with e' | j
  · simp only [hl] at h
    have hne := loadJsonPayload_ne_auth data file fs parse
    rw [hl] at hne
    exact hne (by rw [Except.error.inj h])
  · simp only [hl] at h
    cases j with
    | arr elems =>
      have h' : (if elems.length > 250 then (.error .tooManyItems : Except CmdError ExecOutcome)
          else executeUrl (buildUrl "json" (jsonParams token rv (.arr elems))) true world) =
          .error .authRequired := h
      by_cases hlen : elems.length > 250
      · rw [if_pos hlen] at h'
        exact CmdError.noConfusion (Except.error.inj h')
      · rw [if_neg hlen] at h'
        simp [executeUrl] at h'
    | null => exact CmdError.noConfusion (Except.error.inj h)
    | bool b => exact CmdError.noConfusion (Except.error.inj h)
    | num n => exact CmdError.noConfusion (Except.error.inj h)
    | str s => exact CmdError.noConfusion (Except.error.inj h)
    | obj fields => exact CmdError.noConfusion (Except.error.inj h)

/-- C2: without a credential and outside dry-run, update, update-project,
and the batch json command all fail with the authentication-required error
before any request is built; with dry_run the credential check is bypassed
and the commands build and print their request. -/
theorem c2_auth_gate (token : Option String) (u : UpdateOptions) (p : UpdateProjectOptions)
    (data file : Option String) (rv : Bool) (fs : String → FileOutcome)
    (parse : String → Option Json) (world : OpenOutcome) :
    (pyTruthy token = false →
      updateCommand token u false world = .error .authRequired ∧
      updateProjectCommand token p false world = .error .authRequired ∧
      jsonCommand token data file rv false fs parse world = .error .authRequired) ∧
    updateCommand token u true world =
      .ok ⟨["[cyan]Would execute:[/cyan] " ++ buildUrl "update" (updateParams token u)], []⟩ ∧
    updateProjectCommand token p true world =
      .ok ⟨["[cyan]Would execute:[/cyan] " ++
        buildUrl "update-project" (updateProjectParams token p)], []⟩ ∧
    jsonCommand token data file rv true fs parse world ≠ .error .authRequired ∧
    (∀ elems, loadJsonPayload data file fs parse = .ok (.arr elems) → elems.length ≤ 250 →
      jsonCommand token data file rv true fs parse world =
        .ok ⟨["[cyan]Would execute:[/cyan] " ++
          buildUrl "json" (jsonParams token rv (.arr elems))], []⟩) := by
  refine ⟨?_, ?_, ?_, jsonCommand_dry_no_auth token data file rv fs parse world, ?_⟩
  · intro h
    refine ⟨?_, ?_, ?_⟩ <;> simp [updateCommand, updateProjectCommand, jsonCommand, h]
  · simp [updateCommand, executeUrl]
  · simp [updateProjectCommand, executeUrl]
  · intro elems hl hlen
    have hred : jsonCommand token data file rv true fs parse world =
        (if elems.length > 250 then .error .tooManyItems
         else executeUrl (buildUrl "json" (jsonParams token rv (.arr elems))) true world) := by
      simp only [jsonCommand]
      rw [if_neg (by simp), hl]
    rw [hred, if_neg (by omega)]
    rfl

/-- C2 at concrete inputs: a missing token fails the three commands, and
dry runs go through without one. -/
theorem c2_auth_gate_witness :
    updateCommand none sampleUpdate false .success = .error .authRequired ∧
    updateProjectCommand none sampleUpdateProject false .success = .error .authRequired ∧
    jsonCommand none (some "[null]") none false false sampleFs sampleParse .success =
      .error .authRequired ∧
    updateCommand none sampleUpdate true .success =
      .ok ⟨["[cyan]Would execute:[/cyan] " ++
        buildUrl "update" (updateParams none sampleUpdate)], []⟩ ∧
    jsonCommand none (some "[null]") none false true sampleFs sampleParse .success =
      .ok ⟨["[cyan]Would execute:[/cyan] " ++
        buildUrl "json" (jsonParams none false (.arr [Json.null]))], []⟩ := by
  have h := c2_auth_gate none sampleUpdate sampleUpdateProject (some "[null]") none false
    sampleFs sampleParse .success
  refine ⟨(h.1 rfl).1, (h.1 rfl).2.1, (h.1 rfl).2.2, h.2.1, ?_⟩
  exact h.2.2.2.2 [Json.null] rfl (by simp)

/-- C3: the batch json command rejects a payload that is not a top-level
sequence, and rejects a sequence of more than 250 elements, in both cases
before any request is built; a sequence of exactly 250 elements passes
both validations and the request is built and dispatched. -/
theorem c3_batch_validation (token : Option String) (data file : Option String) (rv dry : Bool)
    (fs : String → FileOutcome) (parse : String → Option Json) (world : OpenOutcome)
    (hauth : pyTruthy token = true ∨ dry = true) :
    (∀ j, loadJsonPayload data file fs parse = .ok j → (∀ elems, j ≠ .arr elems) →
      jsonCommand token data file rv dry fs parse world = .error .notAnArray) ∧
    (∀ elems, loadJsonPayload data file fs parse = .ok (.arr elems) → 250 < elems.length →
      jsonCommand token data file rv dry fs parse world = .error .tooManyItems) ∧
    (∀ elems, loadJsonPayload data file fs parse = .ok (.arr elems) → elems.length = 250 →
      jsonCommand token data file rv dry fs parse world =
        executeUrl (buildUrl "json" (jsonParams token rv (.arr elems))) dry world) := by
  have hgate : ¬ (¬ pyTruthy token ∧ ¬ dry) := by
    rcases hauth with h | h <;> simp [h]
  refine ⟨?_, ?_, ?_⟩
  · intro j hl hne
    simp only [jsonCommand]
    rw [if_neg hgate, hl]
    cases j with
    | arr elems => exact absurd rfl (hne elems)
    | null => rfl
    | bool b => rfl
    | num n => rfl
    | str s => rfl
    | obj fields => rfl
  · intro elems hl hlen
    have hred : jsonCommand token data file rv dry fs parse world =
        (if elems.length > 250 then .error .tooManyItems
         else executeUrl (buildUrl "json" (jsonParams token rv (.arr elems))) dry world) := by
      simp only [jsonCommand]
      rw [if_neg hgate, hl]
    rw [hred, if_pos (by omega)]
  · intro elems hl hlen
    have hred : jsonCommand token data file rv dry fs parse world =
        (if elems.length > 250 then .error .tooManyItems
         else executeUrl (buildUrl "json" (jsonParams token rv (.arr elems))) dry world) := by
      simp only [jsonCommand]
      rw [if_neg hgate, hl]
    rw [hred, if_neg (by omega)]

/-- C3 at concrete inputs: a single record fails the shape check, 251
elements fail the cap, 250 elements build a request. -/
theorem c3_batch_validation_witness :
    jsonCommand (some "secret") (some "payload") none false false sampleFs parseSingleRecord
      .success = .error .notAnArray ∧
    jsonCommand (some "secret") (some "payload") none false false sampleFs parseArr251
      .success = .error .tooManyItems ∧
    jsonCommand (some "secret") (some "payload") none false false sampleFs parseArr250
      .success = executeUrl (buildUrl "json" (jsonParams (some "secret") false
        (.arr (List.replicate 250 Json.null)))) false .success := by
  refine ⟨?_, ?_, ?_⟩
  · exact (c3_batch_validation (some "secret") (some "payload") none false false sampleFs
      parseSingleRecord .success (Or.inl rfl)).1 (.obj [("type", .str "to-do")]) rfl
      (fun elems h => Json.noConfusion h)
  · exact (c3_batch_validation (some "secret") (some "payload") none false false sampleFs
      parseArr251 .success (Or.inl rfl)).2.1 (List.replicate 251 Json.null) rfl
      (by rw [List.length_replicate]; omega)
  · exact (c3_batch_validation (some "secret") (some "payload") none false false sampleFs
      parseArr250 .success (Or.inl rfl)).2.2 (List.replicate 250 Json.null) rfl
      (List.length_replicate 250 Json.null)

/-- With a truthy file argument, payload loading reads the file branch
only. -/
theorem loadJsonPayload_file_branch (data : Option String) (filePath : String)
    (fs : String → FileOutcome) (parse : String → Option Json)
    (h : pyTruthy (some filePath) = true) :
    loadJsonPayload data (some filePath) fs parse =
      loadJsonPayload none (some filePath) fs parse := by
  simp [loadJsonPayload, h]

/-- With a truthy file argument, payload loading never reports an inline
data parse error. -/
theorem loadJsonPayload_file_no_dataParse (data : Option String) (filePath : String)
    (fs : String → FileOutcome) (parse : String → Option Json)
    (h : pyTruthy (some filePath) = true) :
    loadJsonPayload data (some filePath) fs parse ≠ .error .dataParseError := by
  simp only [loadJsonPayload, h, if_pos]
  repeat' split
  all_goals simp

/-- C9: when both an inline data string and a file path are given, the
file wins: the command behaves exactly as if no inline data had been
passed, and an inline parse error can never occur. -/
theorem c9_file_precedence (token : Option String) (d filePath : String) (rv dry : Bool)
    (fs : String → FileOutcome) (parse : String → Option Json) (world : OpenOutcome)
    (hfile : pyTruthy (some filePath) = true) :
    jsonCommand token (some d) (some filePath) rv dry fs parse world =
      jsonCommand token none (some filePath) rv dry fs parse world ∧
    jsonCommand token (some d) (some filePath) rv dry fs parse world ≠
      .error .dataParseError := by
  constructor
  · simp only [jsonCommand, loadJsonPayload_file_branch (some d) filePath fs parse hfile]
  · intro h
    rcases jsonCommand_error_shape _ _ _ _ _ _ _ _ _ h with h1 | h1 | h1 | h1 | h1 | h1
    · exact CmdError.noConfusion h1
    · exact loadJsonPayload_file_no_dataParse (some d) filePath fs parse hfile h1
    · exact CmdError.noConfusion h1
    · exact CmdError.noConfusion h1
    · exact CmdError.noConfusion h1
    · exact CmdError.noConfusion h1

/-- C9 at concrete inputs: unparseable inline data is ignored when a file
is also given. -/
theorem c9_file_precedence_witness :
    jsonCommand (some "secret") (some "garbage /// not json") (some "batch.json") false false
      sampleFs sampleParse .success =
    jsonCommand (some "secret") none (some "batch.json") false false
      sampleFs sampleParse .success ∧
    jsonCommand (some "secret") (some "garbage /// not json") (some "batch.json") false false
      sampleFs sampleParse .success ≠ .error .dataParseError := by
  exact c9_file_precedence (some "secret") "garbage /// not json" "batch.json" false false
    sampleFs sampleParse .success rfl

/-! ### C4: locale auto-detection -/

/-- C4: given the detected German labels in positional order, the map
binds each canonical key to its German label and borrows Tomorrow
(`Morgen`) from the locale whose Inbox label equals the detected one. -/
theorem c4_locale_autodetect :
    detectListNames (some ["Eingang", "Heute", "Geplant", "Jederzeit", "Irgendwann", "Logbuch"]) =
      [("inbox", "Eingang"), ("today", "Heute"), ("upcoming", "Geplant"),
       ("anytime", "Jederzeit"), ("someday", "Irgendwann"), ("logbook", "Logbuch"),
       ("tomorrow", "Morgen")] ∧
    tomorrowFromKnown "Eingang" knownTomorrow = some "Morgen" ∧
    dictGet ((dictGet LOCALE_MAPPINGS "de").getD []) "inbox" = some "Eingang" := by
  decide

/-! ### C10: built-in list name resolution -/

/-- A successful association-list lookup pairs the key with a stored
value. -/
theorem dictGet_mem {β : Type} (d : List (String × β)) (k : String) (v : β)
    (h : dictGet d k = some v) : (k, v) ∈ d := by
  unfold dictGet at h
  obtain ⟨kv₀, hfind, hsnd⟩ := Option.map_eq_some'.mp h
  have hmem := List.mem_of_find?_eq_some hfind
  have hpred := List.find?_some hfind
  obtain ⟨a, b⟩ := kv₀
  have ha : a = k := by simpa using hpred
  have hb : b = v := hsnd
  rw [← ha, ← hb]
  exact hmem

/-- A key of `dictSet d k v` is `k` or a key of `d`. -/
theorem dictSet_fst_mem {β : Type} (d : List (String × β)) (k : String) (v : β)
    (kv : String × β) (h : kv ∈ dictSet d k v) : kv.1 = k ∨ kv.1 ∈ d.map Prod.fst := by
  unfold dictSet at h
  split at h
  · obtain ⟨y, hy, hmap⟩ := List.mem_map.mp h
    by_cases hk : (y.1 == k) = true
    · rw [if_pos hk] at hmap
      left
      rw [← hmap]
    · rw [if_neg hk] at hmap
      right
      rw [← hmap]
      exact List.mem_map_of_mem Prod.fst hy
  · rcases List.mem_append.mp h with h1 | h1
    · right
      exact List.mem_map_of_mem Prod.fst h1
    · left
      have heq : kv = (k, v) := by simpa using h1
      rw [heq]

/-- Every key produced by auto-detection is canonical. -/
theorem detectListNames_fst_canonical (bridge : Option (List String)) (kv : String × String)
    (h : kv ∈ detectListNames bridge) : kv.1 ∈ canonicalKeys := by
  cases bridge with
  | none =>
    have hde : detectListNames none =
        [("inbox", "Eingang"), ("today", "Heute"), ("tomorrow", "Morgen"),
         ("anytime", "Jederzeit"), ("upcoming", "Geplant"), ("someday", "Irgendwann"),
         ("logbook", "Logbuch")] := by decide
    rw [hde] at h
    fin_cases h <;> decide
  | some listNames =>
    have hzip : ∀ kv₂ : String × String, kv₂ ∈ englishKeys.zip listNames →
        kv₂.1 ∈ canonicalKeys := by
      intro kv₂ hkv₂
      obtain ⟨a, b⟩ := kv₂
      have ha := (List.of_mem_zip hkv₂).1
      have hsub : ∀ x ∈ englishKeys, x ∈ canonicalKeys := by decide
      exact hsub a ha
    have hdetected : ∀ kv₂ : String × String,
        kv₂ ∈ (match tomorrowFromKnown
            ((dictGet (englishKeys.zip listNames) "inbox").getD "") knownTomorrow with
          | some tomorrowLabel => dictSet (englishKeys.zip listNames) "tomorrow" tomorrowLabel
          | none => englishKeys.zip listNames) → kv₂.1 ∈ canonicalKeys := by
      intro kv₂
      cases tomorrowFromKnown ((dictGet (englishKeys.zip listNames) "inbox").getD "")
          knownTomorrow with
      | some tomorrowLabel =>
        intro hkv₂
        rcases dictSet_fst_mem _ _ _ _ hkv₂ with h1 | h1
        · rw [h1]; decide
        · obtain ⟨y, hy, hfst⟩ := List.mem_map.mp h1
          rw [← hfst]
          exact hzip y hy
      | none =>
        intro hkv₂
        exact hzip kv₂ hkv₂
    have hfinal : kv ∈ detectEnsureTomorrow (match tomorrowFromKnown
        ((dictGet (englishKeys.zip listNames) "inbox").getD "") knownTomorrow with
      | some tomorrowLabel => dictSet (englishKeys.zip listNames) "tomorrow" tomorrowLabel
      | none => englishKeys.zip listNames) := h
    unfold detectEnsureTomorrow at hfinal
    split at hfinal
    · exact hdetected kv hfinal
    · rcases dictSet_fst_mem _ _ _ _ hfinal with h1 | h1
      · rw [h1]; decide
      · obtain ⟨y, hy, hfst⟩ := List.mem_map.mp h1
        rw [← hfst]
        exact hdetected y hy

/-- Every key of the mapping chosen by `get_list_tasks` is canonical. -/
theorem chooseMapping_fst_canonical (locale : Option String) (bridge : Option (List String))
    (kv : String × String) (h : kv ∈ chooseMapping locale bridge) : kv.1 ∈ canonicalKeys := by
  unfold chooseMapping at h
  split at h
  · rename_i hcond
    cases hm : dictGet LOCALE_MAPPINGS (locale.getD "") with
    | none => rw [hm] at h; simp at h
    | some table =>
      rw [hm] at h
      have hmem := dictGet_mem _ _ _ hm
      have htables : table = [("inbox", "Eingang"), ("today", "Heute"), ("tomorrow", "Morgen"),
          ("anytime", "Jederzeit"), ("upcoming", "Geplant"), ("someday", "Irgendwann"),
          ("logbook", "Logbuch")] ∨
          table = [("inbox", "Inbox"), ("today", "Today"), ("tomorrow", "Tomorrow"),
          ("anytime", "Anytime"), ("upcoming", "Upcoming"), ("someday", "Someday"),
          ("logbook", "Logbook")] := by
        rcases List.mem_cons.mp hmem with h1 | h1
        · left; exact congrArg Prod.snd h1
        · rcases List.mem_cons.mp h1 with h2 | h2
          · right; exact congrArg Prod.snd h2
          · cases h2
      rcases htables with ht | ht <;> rw [ht] at h <;> rw [Option.getD_some] at h <;>
        fin_cases h <;> decide
  · split at h
    · exact detectListNames_fst_canonical bridge kv h
    · exact detectListNames_fst_canonical bridge kv h

/-- C10: the requested built-in list name is lowercased before the locale
lookup (so the lookup is case-insensitive), and a name that is not one of
the seven canonical keys reaches the generated script unchanged. -/
theorem c10_list_name_lookup (locale : Option String) (bridge : Option (List String))
    (listName : String) :
    getListTasksScript listName locale bridge =
      listTasksScript (localizedListName (chooseMapping locale bridge) listName) ∧
    localizedListName (chooseMapping locale bridge) listName =
      (dictGet (chooseMapping locale bridge) (pyLower listName)).getD listName ∧
    (∀ other : String, (pyLower other) = (pyLower listName) →
      dictGet (chooseMapping locale bridge) (pyLower other) =
        dictGet (chooseMapping locale bridge) (pyLower listName)) ∧
    ((pyLower listName) ∉ canonicalKeys →
      localizedListName (chooseMapping locale bridge) listName = listName ∧
      getListTasksScript listName locale bridge = listTasksScript listName) := by
  refine ⟨rfl, rfl, fun other h => by rw [h], ?_⟩
  intro hnot
  have hnone : dictGet (chooseMapping locale bridge) (pyLower listName) = none := by
    cases hd : dictGet (chooseMapping locale bridge) (pyLower listName) with
    | none => rfl
    | some v =>
      exact absurd (chooseMapping_fst_canonical locale bridge _ (dictGet_mem _ _ _ hd)) hnot
  constructor
  · unfold localizedListName
    rw [hnone]
    rfl
  · unfold getListTasksScript localizedListName
    rw [hnone]
    rfl

/-- C10 at concrete inputs: an unknown name passes through unchanged, and
differently-cased spellings of a canonical key look up the same entry. -/
theorem c10_list_name_lookup_witness :
    localizedListName (chooseMapping (some "en") none) "Groceries" = "Groceries" ∧
    dictGet (chooseMapping (some "en") none) (pyLower "INBOX") =
      dictGet (chooseMapping (some "en") none) (pyLower "Inbox") := by
  refine ⟨((c10_list_name_lookup (some "en") none "Groceries").2.2.2 (by decide)).1, ?_⟩
  exact (c10_list_name_lookup (some "en") none "Inbox").2.2.1 "INBOX" (by decide)

/-! ### C5: split_items -/

theorem dropWhile_dropWhile (p : Char → Bool) (l : List Char) :
    (l.dropWhile p).dropWhile p = l.dropWhile p := by
  induction l with
  | nil => rfl
  | cons a t ih =>
    rw [List.dropWhile_cons]
    by_cases h : p a
    · rw [if_pos h, ih]
    · rw [if_neg h, List.dropWhile_cons, if_neg h]

/-- A prefix of a list with no leading matches has no leading matches. -/
theorem dropWhile_eq_self_of_prefix (p : Char → Bool) (l₁ l₂ : List Char)
    (hp : l₁ <+: l₂) (h : l₂.dropWhile p = l₂) : l₁.dropWhile p = l₁ := by
  cases l₁ with
  | nil => rfl
  | cons a t =>
    obtain ⟨r, hr⟩ := hp
    rw [← hr, List.cons_append, List.dropWhile_cons] at h
    by_cases hpa : p a
    · rw [if_pos hpa] at h
      have hlen := congrArg List.length h
      rw [List.length_cons] at hlen
      have hle := (List.dropWhile_suffix (l := t ++ r) p).length_le
      omega
    · rw [List.dropWhile_cons, if_neg hpa]

theorem dropTrailing_prefix_self (l : List Char) : dropTrailing l <+: l := by
  have h := List.reverse_prefix.mpr (List.dropWhile_suffix (l := l.reverse) pyIsSpace)
  rw [List.reverse_reverse] at h
  exact h

theorem dropTrailing_frontClean (l : List Char) (h : l.dropWhile pyIsSpace = l) :
    (dropTrailing l).dropWhile pyIsSpace = dropTrailing l :=
  dropWhile_eq_self_of_prefix pyIsSpace (dropTrailing l) l (dropTrailing_prefix_self l) h

theorem dropTrailing_dropTrailing (l : List Char) :
    dropTrailing (dropTrailing l) = dropTrailing l := by
  unfold dropTrailing
  rw [List.reverse_reverse, dropWhile_dropWhile]

/-- Python `str.strip()` is idempotent. -/
theorem pyStrip_pyStrip (l : List Char) : pyStrip (pyStrip l) = pyStrip l := by
  unfold pyStrip
  rw [dropTrailing_frontClean _ (dropWhile_dropWhile pyIsSpace l), dropTrailing_dropTrailing]

theorem pyStrip_subset (l : List Char) (c : Char) (h : c ∈ pyStrip l) : c ∈ l := by
  unfold pyStrip dropTrailing at h
  rw [List.mem_reverse] at h
  have h2 := (List.dropWhile_suffix pyIsSpace).subset h
  rw [List.mem_reverse] at h2
  exact (List.dropWhile_suffix pyIsSpace).subset h2

theorem pySplitChar_cons (sep c : Char) (rest : List Char) :
    pySplitChar sep (c :: rest) =
      if c = sep then [] :: pySplitChar sep rest
      else (c :: (pySplitChar sep rest).headD []) :: (pySplitChar sep rest).tail := rfl

theorem pySplitChar_ne_nil (sep : Char) (l : List Char) : pySplitChar sep l ≠ [] := by
  cases l with
  | nil => simp [pySplitChar]
  | cons c rest =>
    simp only [pySplitChar]
    split <;> simp

theorem pySplitChar_no_sep (sep : Char) (l : List Char) :
    ∀ p ∈ pySplitChar sep l, sep ∉ p := by
  induction l with
  | nil =>
    intro p hp
    have hp' : p = [] := by simpa [pySplitChar] using hp
    rw [hp']
    exact List.not_mem_nil sep
  | cons c rest ih =>
    intro p hp
    cases hr : pySplitChar sep rest with
    | nil => exact absurd hr (pySplitChar_ne_nil sep rest)
    | cons q qs =>
      simp only [pySplitChar, hr] at hp
      by_cases hc : c = sep
      · rw [if_pos hc] at hp
        rcases List.mem_cons.mp hp with h1 | h1
        · rw [h1]; exact List.not_mem_nil sep
        · exact ih p (hr ▸ h1)
      · rw [if_neg hc] at hp
        rcases List.mem_cons.mp hp with h1 | h1
        · rw [h1]
          intro hmem
          rcases List.mem_cons.mp hmem with h2 | h2
          · exact hc h2.symm
          · exact ih q (hr ▸ List.mem_cons_self q qs) (by simpa using h2)
        · exact ih p (hr ▸ List.mem_cons_of_mem q (by simpa using h1))

theorem pySplitChar_subset (sep : Char) (l : List Char) :
    ∀ p ∈ pySplitChar sep l, ∀ c ∈ p, c ∈ l := by
  induction l with
  | nil =>
    intro p hp c hc
    have hp' : p = [] := by simpa [pySplitChar] using hp
    rw [hp'] at hc
    exact absurd hc (List.not_mem_nil c)
  | cons a rest ih =>
    intro p hp c hc
    cases hr : pySplitChar sep rest with
    | nil => exact absurd hr (pySplitChar_ne_nil sep rest)
    | cons q qs =>
      simp only [pySplitChar, hr] at hp
      by_cases ha : a = sep
      · rw [if_pos ha] at hp
        rcases List.mem_cons.mp hp with h1 | h1
        · rw [h1] at hc
          exact absurd hc (List.not_mem_nil c)
        · exact List.mem_cons_of_mem a (ih p (hr ▸ h1) c hc)
      · rw [if_neg ha] at hp
        rcases List.mem_cons.mp hp with h1 | h1
        · rw [h1] at hc
          rcases List.mem_cons.mp hc with h2 | h2
          · rw [h2]; exact List.mem_cons_self a rest
          · exact List.mem_cons_of_mem a
              (ih q (hr ▸ List.mem_cons_self q qs) c (by simpa using h2))
        · exact List.mem_cons_of_mem a
            (ih p (hr ▸ List.mem_cons_of_mem q (by simpa using h1)) c hc)

theorem pySplitChar_of_no_sep (sep : Char) (l : List Char) (h : sep ∉ l) :
    pySplitChar sep l = [l] := by
  induction l with
  | nil => rfl
  | cons c rest ih =>
    simp only [List.mem_cons, not_or] at h
    simp only [pySplitChar, ih h.2]
    rw [if_neg (fun hcc => h.1 hcc.symm)]
    rfl

theorem pySplitChar_append (sep : Char) (l t : List Char) (h : sep ∉ l) :
    pySplitChar sep (l ++ sep :: t) = l :: pySplitChar sep t := by
  induction l with
  | nil =>
    rw [List.nil_append, pySplitChar_cons, if_pos rfl]
  | cons c rest ih =>
    simp only [List.mem_cons, not_or] at h
    rw [List.cons_append, pySplitChar_cons, ih h.2, if_neg (fun hcc => h.1 hcc.symm),
      List.headD_cons, List.tail_cons]

theorem pySplitChar_joinNL (ys : List (List Char)) (hne : ys ≠ [])
    (h : ∀ y ∈ ys, '\n' ∉ y) : pySplitChar '\n' (joinNLChars ys) = ys := by
  induction ys with
  | nil => exact absurd rfl hne
  | cons y ys ih =>
    cases ys with
    | nil =>
      simp only [joinNLChars]
      exact pySplitChar_of_no_sep '\n' y (h y (List.mem_cons_self y []))
    | cons y₂ rest =>
      simp only [joinNLChars]
      rw [pySplitChar_append '\n' y _ (h y (List.mem_cons_self _ _))]
      rw [ih (by simp) (fun z hz => h z (List.mem_cons_of_mem y hz))]

theorem joinNLChars_mem (ys : List (List Char)) (c : Char) (h : c ∈ joinNLChars ys) :
    c = '\n' ∨ ∃ y ∈ ys, c ∈ y := by
  induction ys with
  | nil => simp [joinNLChars] at h
  | cons y ys ih =>
    cases ys with
    | nil =>
      right
      refine ⟨y, List.mem_cons_self _ _, ?_⟩
      simpa [joinNLChars] using h
    | cons y₂ rest =>
      simp only [joinNLChars] at h
      rcases List.mem_append.mp h with h1 | h1
      · right; exact ⟨y, List.mem_cons_self _ _, h1⟩
      · rcases List.mem_cons.mp h1 with h2 | h2
        · left; exact h2
        · rcases ih h2 with h3 | h3
          · left; exact h3
          · obtain ⟨z, hz, hcz⟩ := h3
            right; exact ⟨z, List.mem_cons_of_mem _ hz, hcz⟩

theorem joinNLChars_ne_nil (ys : List (List Char)) (hne : ys ≠ [])
    (hel : ∀ y ∈ ys, y ≠ []) : joinNLChars ys ≠ [] := by
  cases ys with
  | nil => exact absurd rfl hne
  | cons y ys =>
    cases ys with
    | nil =>
      simp only [joinNLChars]
      exact hel y (List.mem_cons_self _ _)
    | cons y₂ rest =>
      simp only [joinNLChars]
      simp

theorem map_id_of_mem {α : Type} (l : List α) (f : α → α) (h : ∀ a ∈ l, f a = a) :
    l.map f = l := by
  induction l with
  | nil => rfl
  | cons a t ih =>
    rw [List.map_cons, h a (List.mem_cons_self _ _),
      ih (fun b hb => h b (List.mem_cons_of_mem _ hb))]

theorem commaToNL_ne_comma (c : Char) : commaToNL c ≠ ',' := by
  unfold commaToNL
  split <;> first | decide | assumption

/-- Every item `split_items` produces is nonempty, already stripped, and
free of line breaks and commas. -/
theorem splitItemsChars_props (s : List Char) (y : List Char) (h : y ∈ splitItemsChars s) :
    y ≠ [] ∧ pyStrip y = y ∧ '\n' ∉ y ∧ ',' ∉ y := by
  unfold splitItemsChars at h
  obtain ⟨hmem, hpred⟩ := List.mem_filter.mp h
  obtain ⟨piece, hpiece, hstrip⟩ := List.mem_map.mp hmem
  refine ⟨by simpa using hpred, ?_, ?_, ?_⟩
  · rw [← hstrip, pyStrip_pyStrip]
  · intro hc
    rw [← hstrip] at hc
    exact pySplitChar_no_sep '\n' _ piece hpiece (pyStrip_subset _ _ hc)
  · intro hc
    rw [← hstrip] at hc
    have hc'' := pySplitChar_subset '\n' _ piece hpiece ',' (pyStrip_subset _ _ hc)
    obtain ⟨c₀, _hc₀, hmap⟩ := List.mem_map.mp hc''
    exact commaToNL_ne_comma c₀ hmap

/-- Re-splitting the line-break join of a list of nonempty, stripped,
break-free, comma-free items recovers exactly that list. -/
theorem splitItemsChars_join (ys : List (List Char)) (hne : ys ≠ [])
    (hprops : ∀ y ∈ ys, y ≠ [] ∧ pyStrip y = y ∧ '\n' ∉ y ∧ ',' ∉ y) :
    splitItemsChars (joinNLChars ys) = ys := by
  unfold splitItemsChars
  have hmap1 : (joinNLChars ys).map commaToNL = joinNLChars ys := by
    apply map_id_of_mem
    intro c hc
    rcases joinNLChars_mem ys c hc with h1 | h1
    · rw [h1]; rfl
    · obtain ⟨y, hy, hcy⟩ := h1
      have hcne : c ≠ ',' := by
        intro hc'
        rw [hc'] at hcy
        exact (hprops y hy).2.2.2 hcy
      unfold commaToNL
      rw [if_neg hcne]
  rw [hmap1, pySplitChar_joinNL ys hne (fun y hy => (hprops y hy).2.2.1),
    map_id_of_mem ys pyStrip (fun y hy => (hprops y hy).2.1),
    List.filter_eq_self.mpr (fun y hy => by simpa using (hprops y hy).1)]

/-- C5 (amended): splitting `"a, b,c\nd"` yields `["a","b","c","d"]`, and
whenever splitting a string yields at least one item, splitting the
line-break join of that result yields the same sequence.  (When the split
yields no items the re-split returns the absent value, see the
counterexample.) -/
theorem c5_split_idempotent :
    splitItems (some "a, b,c\nd") = some ["a", "b", "c", "d"] ∧
    (∀ (s : String) (xs : List String), splitItems (some s) = some xs → xs ≠ [] →
      splitItems (some (pyJoinNL xs)) = some xs) := by
  refine ⟨by decide, ?_⟩
  intro s xs hs hne
  by_cases htr : pyTruthy (some s) = true
  case neg =>
    rw [Bool.not_eq_true] at htr
    simp [splitItems, htr] at hs
  case pos =>
    simp only [splitItems, htr, if_true, Option.getD_some] at hs
    have hxs : xs = (splitItemsChars s.data).map String.mk := (Option.some.inj hs).symm
    have hprops : ∀ y ∈ splitItemsChars s.data,
        y ≠ [] ∧ pyStrip y = y ∧ '\n' ∉ y ∧ ',' ∉ y :=
      fun y hy => splitItemsChars_props s.data y hy
    have hysne : splitItemsChars s.data ≠ [] := by
      intro h0
      apply hne
      rw [hxs, h0]
      rfl
    have hdata : xs.map String.data = splitItemsChars s.data := by
      rw [hxs, List.map_map]
      exact map_id_of_mem _ _ (fun y _ => rfl)
    have htr2 : pyTruthy (some (pyJoinNL xs)) = true := by
      have hjoin_ne : joinNLChars (xs.map String.data) ≠ [] := by
        rw [hdata]
        exact joinNLChars_ne_nil _ hysne (fun y hy => (hprops y hy).1)
      simp only [pyTruthy, pyJoinNL, decide_eq_true_eq]
      intro heq
      exact hjoin_ne (congrArg String.data heq)
    simp only [splitItems, htr2, if_true, Option.getD_some]
    congr 1
    have hjn : (pyJoinNL xs).data = joinNLChars (splitItemsChars s.data) := by
      have hd : (String.mk (joinNLChars (xs.map String.data))).data =
          joinNLChars (xs.map String.data) := rfl
      rw [pyJoinNL, hd, hdata]
    rw [hjn, splitItemsChars_join _ hysne hprops]
    exact hxs.symm

/-- C5 counterexample: `","` splits to the empty item list, but splitting
the line-break join of that result (the empty string) yields the absent
value, not the empty list — the round trip is not the identity there. -/
theorem c5_split_idempotent_counterexample :
    splitItems (some ",") = some [] ∧
    pyJoinNL [] = "" ∧
    splitItems (some (pyJoinNL ((splitItems (some ",")).getD []))) ≠ splitItems (some ",") := by
  decide

/-- C5 at a concrete input: the documented example splits as stated and
re-splitting its join is the identity. -/
theorem c5_split_idempotent_witness :
    splitItems (some "a, b,c\nd") = some ["a", "b", "c", "d"] ∧
    splitItems (some (pyJoinNL ["a", "b", "c", "d"])) = some ["a", "b", "c", "d"] := by
  refine ⟨c5_split_idempotent.1, ?_⟩
  exact c5_split_idempotent.2 "a, b,c\nd" ["a", "b", "c", "d"] (by decide) (by decide)

end ThingsCli
